import Mathlib

/-!
Verification development for the malfeasant bot-detection gateway.

The JavaScript sources are shallowly embedded as executable Lean
definitions:
* `seeded-random.js` → `Sha256` (the `crypto` SHA-256 digest the
  constructor computes) and `SeededRandom`;
* `markov.js`        → `MarkovChain` and `generateWordsCore`;
* the `RobotDetector` class (rate limiter + classifier) → `checkRateLimits`,
  `addRequestToCounter`, `cleanupRateCounters`, `getContent`, …;
* the `ContentScrambler` class → `scrambleText`, `scrambleHtmlContent`.

JavaScript `number` arithmetic on PRNG values is modelled with exact
rationals (`ℚ`); timestamps are modelled as integers (milliseconds);
strings are Lean `String`s (the sources only ever handle them as
sequences of characters).  JS `Map`/`Set` iteration order is insertion
order, so maps are embedded as association lists and sets as
duplicate-free lists, both in insertion order.
-/

namespace Malfeasant

/-! ## SHA-256 (the digest computed by the crypto module), over lists of bytes -/

namespace Sha256

def mask32 : Nat := 4294967296

def add32 (a b : Nat) : Nat := (a + b) % mask32

def rotr (n x : Nat) : Nat :=
  ((x >>> n) ||| (x <<< (32 - n))) % mask32

def shr (n x : Nat) : Nat := x >>> n

def wnot (x : Nat) : Nat := (mask32 - 1) ^^^ x

def bigSigma0 (x : Nat) : Nat := rotr 2 x ^^^ rotr 13 x ^^^ rotr 22 x
def bigSigma1 (x : Nat) : Nat := rotr 6 x ^^^ rotr 11 x ^^^ rotr 25 x
def smallSigma0 (x : Nat) : Nat := rotr 7 x ^^^ rotr 18 x ^^^ shr 3 x
def smallSigma1 (x : Nat) : Nat := rotr 17 x ^^^ rotr 19 x ^^^ shr 10 x

def ch (x y z : Nat) : Nat := (x &&& y) ^^^ (wnot x &&& z)
def maj (x y z : Nat) : Nat := (x &&& y) ^^^ (x &&& z) ^^^ (y &&& z)

def K : List Nat :=
  [1116352408, 1899447441, 3049323471, 3921009573,
   961987163, 1508970993, 2453635748, 2870763221,
   3624381080, 310598401, 607225278, 1426881987,
   1925078388, 2162078206, 2614888103, 3248222580,
   3835390401, 4022224774, 264347078, 604807628,
   770255983, 1249150122, 1555081692, 1996064986,
   2554220882, 2821834349, 2952996808, 3210313671,
   3336571891, 3584528711, 113926993, 338241895,
   666307205, 773529912, 1294757372, 1396182291,
   1695183700, 1986661051, 2177026350, 2456956037,
   2730485921, 2820302411, 3259730800, 3345764771,
   3516065817, 3600352804, 4094571909, 275423344,
   430227734, 506948616, 659060556, 883997877,
   958139571, 1322822218, 1537002063, 1747873779,
   1955562222, 2024104815, 2227730452, 2361852424,
   2428436474, 2756734187, 3204031479, 3329325298]

structure Regs where
  a : Nat
  b : Nat
  c : Nat
  d : Nat
  e : Nat
  f : Nat
  g : Nat
  h : Nat
deriving Repr, DecidableEq

def H0 : Regs :=
  ⟨1779033703, 3144134277, 1013904242, 2773480762,
   1359893119, 2600822924, 528734635, 1541459225⟩

/-- Big-endian byte rendering of `n` on `count` bytes. -/
def natToBytesBE (n count : Nat) : List Nat :=
  (List.range count).map fun i => (n >>> (8 * (count - 1 - i))) % 256

/-- Big-endian 32-bit word number `i` of a 64-byte chunk. -/
def wordOf (chunk : List Nat) (i : Nat) : Nat :=
  chunk.getD (4 * i) 0 * 16777216 + chunk.getD (4 * i + 1) 0 * 65536 +
    chunk.getD (4 * i + 2) 0 * 256 + chunk.getD (4 * i + 3) 0

/-- Extend the 16-word schedule to 64 words (`fuel` counts remaining words). -/
def extendSchedule : Nat → List Nat → List Nat
  | 0, w => w
  | fuel + 1, w =>
    let t := w.length
    let next := add32 (add32 (smallSigma1 (w.getD (t - 2) 0)) (w.getD (t - 7) 0))
      (add32 (smallSigma0 (w.getD (t - 15) 0)) (w.getD (t - 16) 0))
    extendSchedule fuel (w ++ [next])

def schedule (chunk : List Nat) : List Nat :=
  extendSchedule 48 ((List.range 16).map (wordOf chunk))

def round (w : List Nat) (t : Nat) (s : Regs) : Regs :=
  let temp1 := add32 (add32 (add32 s.h (bigSigma1 s.e)) (ch s.e s.f s.g))
    (add32 (K.getD t 0) (w.getD t 0))
  let temp2 := add32 (bigSigma0 s.a) (maj s.a s.b s.c)
  ⟨add32 temp1 temp2, s.a, s.b, s.c, add32 s.d temp1, s.e, s.f, s.g⟩

def rounds (w : List Nat) : Nat → Regs → Regs
  | 0, s => s
  | fuel + 1, s => rounds w fuel (round w (64 - (fuel + 1)) s)

def compress (h : Regs) (chunk : List Nat) : Regs :=
  let w := schedule chunk
  let s := rounds w 64 h
  ⟨add32 h.a s.a, add32 h.b s.b, add32 h.c s.c, add32 h.d s.d,
   add32 h.e s.e, add32 h.f s.f, add32 h.g s.g, add32 h.h s.h⟩

/-- Pad a byte message: `0x80`, zeros to 56 mod 64, 8-byte bit length. -/
def pad (msg : List Nat) : List Nat :=
  let z := (120 - ((msg.length + 1) % 64)) % 64
  msg ++ [0x80] ++ List.replicate z 0 ++ natToBytesBE (msg.length * 8) 8

/-- Fold `compress` over consecutive 64-byte chunks.  The recursion is
driven by a fuel counter so that it is structural; each step consumes 64
bytes, so `rest.length` fuel always suffices. -/
def processChunksF : Nat → Regs → List Nat → Regs
  | 0, h, _ => h
  | _, h, [] => h
  | fuel + 1, h, x :: t =>
    processChunksF fuel (compress h ((x :: t).take 64)) ((x :: t).drop 64)

def processChunks (h : Regs) (rest : List Nat) : Regs :=
  processChunksF rest.length h rest

/-- SHA-256 digest (32 bytes) of a byte message. -/
def digestBytes (msg : List Nat) : List Nat :=
  let r := processChunks H0 (pad msg)
  natToBytesBE r.a 4 ++ natToBytesBE r.b 4 ++ natToBytesBE r.c 4 ++
    natToBytesBE r.d 4 ++ natToBytesBE r.e 4 ++ natToBytesBE r.f 4 ++
    natToBytesBE r.g 4 ++ natToBytesBE r.h 4

def hexDigit (n : Nat) : Char :=
  if n < 10 then Char.ofNat (48 + n) else Char.ofNat (87 + n)

def byteToHex (b : Nat) : List Char := [hexDigit (b / 16), hexDigit (b % 16)]

/-- Lowercase hexadecimal rendering of a byte list (the hex digest). -/
def bytesToHex (bs : List Nat) : String :=
  String.mk (bs.flatMap byteToHex)

end Sha256

/-- Byte sequence of a string.  The sources hash UTF-8 bytes; for the
ASCII strings handled here this is the list of character codes. -/
def strBytes (s : String) : List Nat := s.data.map Char.toNat

/-- Model of the crypto SHA-256 digest of a string, as a byte list. -/
def sha256 (s : String) : List Nat := Sha256.digestBytes (strBytes s)

/-- Model of the crypto SHA-256 digest of a string, in hexadecimal. -/
def sha256Hex (s : String) : String := Sha256.bytesToHex (sha256 s)

/-! ## `seeded-random.js` — class `SeededRandom`

JS numbers produced by `random()` are quotients of digest bytes by 255;
they are modelled as exact rationals. -/

structure SeededRandom where
  hash : List Nat
  index : Nat
deriving Repr, DecidableEq

/-- Constructor `new SeededRandom(seed)`: hash the seed, start at index 0. -/
def SeededRandom.ofSeed (seed : String) : SeededRandom :=
  ⟨sha256 seed, 0⟩

/-- The digest-byte step shared by every draw of `random()`: wrap the
byte index at the digest length, return the current digest byte, and
advance the index. -/
def SeededRandom.nextByte (sr : SeededRandom) : Nat × SeededRandom :=
  let i := if sr.hash.length ≤ sr.index then 0 else sr.index
  (sr.hash.getD i 0, ⟨sr.hash, i + 1⟩)

/-- Method `random()`: the current digest byte scaled by `1/255`. -/
def SeededRandom.random (sr : SeededRandom) : ℚ × SeededRandom :=
  let (b, sr') := sr.nextByte
  ((b : ℚ) / 255, sr')

/-- Method `randomInt(min, max)`, whose source formula is
`Math.floor(random() * (max - min)) + min`.
The floor of `(b / 255) * (max - min)` is computed in exact integer
arithmetic as `b * (max - min) / 255`; `randomInt_eq_floor` below proves
this equal to the floor formula of the source. -/
def SeededRandom.randomInt (sr : SeededRandom) (min max : Int) :
    Int × SeededRandom :=
  let (b, sr') := sr.nextByte
  ((b * (max - min)) / 255 + min, sr')

/-- Method `pick(array)`: `undefined` (`none`) on the empty array without
consuming a draw; otherwise index `randomInt(0, length)`, which can be
`length` itself (JS `undefined`) when the digest byte is 255. -/
def SeededRandom.pick {α : Type} (sr : SeededRandom) (xs : List α) :
    Option α × SeededRandom :=
  if xs.isEmpty then (none, sr)
  else
    let (i, sr') := sr.randomInt 0 xs.length
    (xs.get? i.toNat, sr')

/-- The value of draw number `k` (0-based) of the `random()` stream
started from state `sr`. -/
def SeededRandom.drawAt (sr : SeededRandom) : Nat → ℚ
  | 0 => sr.random.1
  | k + 1 => SeededRandom.drawAt sr.random.2 k

/-! ## `markov.js` — class `MarkovChain`

`this.chains` is a `Map` from word to a `Map` from next word to count;
`this.words` is a `Set`.  JS map/set iteration order is insertion order,
so both are embedded as lists in insertion order (the inner and outer
association lists are duplicate-free by `Map` semantics, and `words` is
duplicate-free by `Set` semantics; no theorem below needs that). -/

structure MarkovChain where
  chains : List (String × List (String × Nat))
  words : List String
  isIndexed : Bool
  totalTransitions : Nat
deriving Repr, DecidableEq

/-- JS `toLowerCase()` on strings (ASCII). -/
def jsToLower (s : String) : String := ⟨s.data.map Char.toLower⟩

/-- Stable insertion into a list sorted by ascending count; equal counts
keep their relative order, matching the stable JS `sort((a,b) => a[1]-b[1])`. -/
def insertByCount (x : String × Nat) :
    List (String × Nat) → List (String × Nat)
  | [] => [x]
  | y :: t => if y.2 ≤ x.2 then y :: insertByCount x t else x :: y :: t

/-- Stable ascending sort by transition count. -/
def sortByCountAsc : List (String × Nat) → List (String × Nat)
  | [] => []
  | x :: t => insertByCount x (sortByCountAsc t)

/-- The weighted-selection walk of `getNextWord`: accumulate counts until
the running sum reaches `randomValue = (b / 255) * totalCount`; fall back
to the last word.  The comparison `randomValue ≤ accumulator` is scaled
by 255 into exact integer arithmetic: `rv = b * totalCount` versus
`accumulator * 255` (`byteScale_le` below proves the scaling sound). -/
def weightedWalk (rv : Nat) (last : String) (acc : Nat) :
    List (String × Nat) → String
  | [] => last
  | (w, c) :: rest =>
    let acc' := acc + c
    if rv ≤ acc' * 255 then w else weightedWalk rv w acc' rest

/-- Method `getNextWord(currentWord, seededRandom)`.  The test
`random() < 0.15` is scaled by `255 * 100` into the exact integer
comparison `b * 100 < 15 * 255` (`byteScale_lt` below).  Returns
`.error ()` on the code path where `seededRandom.pick(lowerHalf)` yields
`undefined` and the subscript `[0]` would throw a `TypeError`. -/
def getNextWord (chains : List (String × List (String × Nat)))
    (currentWord : String) (sr : SeededRandom) :
    Except Unit (Option String × SeededRandom) :=
  match chains.lookup (jsToLower currentWord) with
  | none => .ok (none, sr)
  | some transitions =>
    if transitions.isEmpty then .ok (none, sr)
    else
      let (b, sr1) := sr.nextByte
      let useRareWord := b * 100 < 15 * 255
      if useRareWord ∧ 1 < transitions.length then
        let sorted := sortByCountAsc transitions
        let lowerHalf := sorted.take ((transitions.length + 1) / 2)
        let (o, sr2) := sr1.pick lowerHalf
        match o with
        | none => .error ()
        | some p => .ok (some p.1, sr2)
      else
        let totalCount : Nat := (transitions.map (·.2)).sum
        let (b2, sr2) := sr1.nextByte
        .ok (some (weightedWalk (b2 * totalCount) "" 0 transitions), sr2)

/-- Method `getRandomWord(seededRandom)`: a `pick` over the vocabulary;
an `undefined` or falsy (empty) result degrades to the word "the". -/
def getRandomWord (words : List String) (sr : SeededRandom) :
    String × SeededRandom :=
  if words.isEmpty then ("the", sr)
  else
    let (o, sr') := sr.pick words
    match o with
    | some w => (if w = "" then "the" else w, sr')
    | none => ("the", sr')

/-- JS `Set.add` on `usedWords`, modelled as a duplicate-free list. -/
def addUsed (used : List String) (w : String) : List String :=
  if used.contains w then used else used ++ [w]

/-- The retry loop of `generateWords`: while attempts remain and the
candidate is truthy (non-null and not the empty string), redraw if it
was used recently and the used set is still below 10% of the
vocabulary. -/
def retryDraw (chains : List (String × List (String × Nat)))
    (wordsSize : Nat) (currentWord : String) (used : List String) :
    Nat → Option String → SeededRandom →
    Except Unit (Option String × SeededRandom)
  | 0, nw, sr => .ok (nw, sr)
  | _, none, sr => .ok (none, sr)
  | fuel + 1, some nw, sr =>
    if nw = "" then .ok (some nw, sr)
    else if used.contains nw ∧ used.length * 10 < wordsSize then
      match getNextWord chains currentWord sr with
      | .error e => .error e
      | .ok (nw', sr') => retryDraw chains wordsSize currentWord used fuel nw' sr'
    else .ok (some nw, sr)

/-- The restart loop of `generateWords`: redraw a random word up to 10
times while it was used recently and the used set is below 50% of the
vocabulary. -/
def restartDraw (words : List String) (used : List String) :
    Nat → String → SeededRandom → String × SeededRandom
  | 0, cw, sr => (cw, sr)
  | fuel + 1, cw, sr =>
    if used.contains cw ∧ used.length * 2 < words.length then
      let (cw', sr') := getRandomWord words sr
      restartDraw words used fuel cw' sr'
    else (cw, sr)

/-- Mutable locals of the generation loop of `generateWords`. -/
structure GenState where
  sr : SeededRandom
  result : List (Option String)
  used : List String
  consecutiveRepeats : Nat
  currentWord : String
deriving Repr, DecidableEq

/-- One iteration (`i`) of the generation loop of `generateWords`. -/
def genStep (chains : List (String × List (String × Nat)))
    (words : List String) (st : GenState) : Except Unit GenState :=
  match getNextWord chains st.currentWord st.sr with
  | .error e => .error e
  | .ok (nw0, sr0) =>
    match retryDraw chains words.length st.currentWord st.used 5 nw0 sr0 with
    | .error e => .error e
    | .ok (nw, sr1) =>
      let st2 : GenState :=
        match nw with
        | some w =>
          if w = "" then
            { st with
              sr := sr1
              consecutiveRepeats := st.consecutiveRepeats + 1 }
          else
            { sr := sr1
              result := st.result ++ [some w]
              used := addUsed st.used w
              consecutiveRepeats :=
                if w ≠ st.currentWord then 0 else st.consecutiveRepeats + 1
              currentWord := w }
        | none =>
          { st with sr := sr1, consecutiveRepeats := st.consecutiveRepeats + 1 }
      let st3 : GenState :=
        if 2 ≤ st2.consecutiveRepeats then
          let rw0 := getRandomWord words st2.sr
          let rst := restartDraw words st2.used 10 rw0.1 rw0.2
          if rst.1 ≠ "" then
            { sr := rst.2
              result := st2.result ++ [some rst.1]
              used := addUsed st2.used rst.1
              consecutiveRepeats := 0
              currentWord := rst.1 }
          else
            { st2 with
              sr := rst.2
              currentWord := rst.1
              consecutiveRepeats := 0 }
        else st2
      .ok (if words.length < st3.used.length * 5 then
            { st3 with used := [] }
          else st3)

/-- The generation loop, `remaining` iterations of `genStep`. -/
def genLoop (chains : List (String × List (String × Nat)))
    (words : List String) : Nat → GenState → Except Unit GenState
  | 0, st => .ok st
  | r + 1, st =>
    match genStep chains words st with
    | .error e => .error e
    | .ok st' => genLoop chains words r st'

/-- Built-in fallback word list of `generateWords`. -/
def fallbackWords : List String :=
  ["the", "quick", "brown", "fox", "jumps", "over", "lazy", "dog", "and",
   "runs", "through", "forest"]

/-- The fallback loop of `generateWords`: `length` picks from the built-in
list; a pick can be JS `undefined` (`none`) when the digest byte is 255. -/
def fallbackGen (sr : SeededRandom) : Nat → List (Option String)
  | 0 => []
  | n + 1 =>
    let (o, sr') := sr.pick fallbackWords
    o :: fallbackGen sr' n

/-- Method `generateWords(length, seed, startWord)` as a function of the fields
of `this` that it reads (`chains`, `words`, `isIndexed`).  List elements
are `Option String` because the fallback path can push JS `undefined`. -/
def generateWordsCore (chains : List (String × List (String × Nat)))
    (words : List String) (isIndexed : Bool) (length : Nat) (seed : String)
    (startWord : Option String) : Except Unit (List (Option String)) :=
  if ¬ isIndexed ∨ words.isEmpty then
    .ok (fallbackGen (SeededRandom.ofSeed seed) length)
  else
    let sr := SeededRandom.ofSeed seed
    let start : String × SeededRandom :=
      match startWord with
      | some sw => if sw = "" then getRandomWord words sr else (jsToLower sw, sr)
      | none => getRandomWord words sr
    let st0 : GenState :=
      { sr := start.2
        result := [some start.1]
        used := addUsed [] start.1
        consecutiveRepeats := 0
        currentWord := start.1 }
    match genLoop chains words (length - 1) st0 with
    | .error e => .error e
    | .ok st => .ok st.result

/-- Method `generateWords(length, seed, startWord)` of the chain object. -/
def MarkovChain.generateWords (c : MarkovChain) (length : Nat) (seed : String)
    (startWord : Option String) : Except Unit (List (Option String)) :=
  generateWordsCore c.chains c.words c.isIndexed length seed startWord

/-! ## class `RobotDetector` — rate limiter and classifier

`this.userRequests` is a JS `Map` from user id to an array of
millisecond timestamps; it is embedded as an association list in
insertion order.  Timestamps are `Int` milliseconds; `Date.now()` at the
time of an operation is passed in as the `now` argument.  The settings
reads (`getRateLimitWindow`, `getRateLimitMax`) are passed in as the
`window` and `max` arguments. -/

abbrev RateMap := List (String × List Int)

/-- Map read `this.userRequests.get(userId) || []`. -/
def mapGet (m : RateMap) (k : String) : List Int := (m.lookup k).getD []

/-- Map write `this.userRequests.set(k, v)`: replace in place, or append a new key
at the end (JS `Map` insertion order). -/
def mapSet : RateMap → String → List Int → RateMap
  | [], k, v => [(k, v)]
  | (k', v') :: t, k, v =>
    if k' = k then (k, v) :: t else (k', v') :: mapSet t k v

/-- The object returned by `checkRateLimits`. -/
structure RateLimitResult where
  exceeded : Bool
  shortCount : Nat
  shortLimit : Nat
deriving Repr, DecidableEq

/-- Method `checkRateLimits(userId)`: filter the stored timestamps of the
visitor to
those strictly inside the window, store the filtered list back, and
report `exceeded` when the filtered count strictly exceeds the limit. -/
def checkRateLimits (now window : Int) (max : Nat) (m : RateMap)
    (userId : String) : RateLimitResult × RateMap :=
  let windowAgo := now - window
  let userTimestamps := mapGet m userId
  let recentTimestamps := userTimestamps.filter fun ts => windowAgo < ts
  let m' := mapSet m userId recentTimestamps
  (⟨decide (max < recentTimestamps.length), recentTimestamps.length, max⟩, m')

/-- Method `addRequestToCounter(userId)`: push `Date.now()` onto the
array of the visitor (creating it when absent); no filtering happens here. -/
def addRequestToCounter (now : Int) (m : RateMap) (userId : String) :
    RateMap :=
  mapSet m userId (mapGet m userId ++ [now])

/-- Method `cleanupRateCounters()`: filter the timestamps of every visitor to the
window and delete visitors whose filtered list is empty. -/
def cleanupRateCounters (now window : Int) (m : RateMap) : RateMap :=
  m.filterMap fun e =>
    let recentTimestamps := e.2.filter fun ts => now - window < ts
    if recentTimestamps.isEmpty then none else some (e.1, recentTimestamps)

/-- JS `haystack.includes(needle)` (substring containment). -/
def strIncludesAux (needle : List Char) : List Char → Bool
  | [] => needle.isEmpty
  | c :: t => needle.isPrefixOf (c :: t) || strIncludesAux needle t

def strIncludes (s sub : String) : Bool := strIncludesAux sub.data s.data

/-- Method `isKnownBadAgent(userAgent)`: some stored pattern is a substring of
the lowercased user agent. -/
def isKnownBadAgent (knownBadAgents : List String) (userAgent : String) :
    Bool :=
  let lowercaseUserAgent := jsToLower userAgent
  knownBadAgents.any fun badAgent => strIncludes lowercaseUserAgent badAgent

/-- Method `isKnownGoodAgent(userAgent)`: the lowercased user agent is a member
of the stored set. -/
def isKnownGoodAgent (knownGoodAgents : List String) (userAgent : String) :
    Bool :=
  knownGoodAgents.contains (jsToLower userAgent)

/-- Row of the known_bad_agents / known_good_agents tables. -/
structure AgentRow where
  user_agent : String
  is_active : Bool
deriving Repr, DecidableEq

/-- Method `refreshKnownAgents()` for one list: select the user_agent
column of the active rows, then lowercase each pattern and collect the
results into a `Set`. -/
def loadActiveAgents (rows : List AgentRow) : List String :=
  (rows.filter (·.is_active)).map fun r => jsToLower r.user_agent

/-- Method `isHtmlRequest(path)`. -/
def isHtmlRequest (path : String) : Bool :=
  path = "/" || path.endsWith ".html" || path.endsWith ".htm" ||
    path.endsWith "/" || !(path.contains '.')

/-- Method `isExcludedFromRateLimit(path)`. -/
def isExcludedFromRateLimit (path : String) : Bool :=
  path.startsWith "/api/" || path = "/dashboard.html" ||
    path = "/dashboard" || path.startsWith "/dashboard/"

/-- Method `generateUserId(userAgent, ipAddress)`: first 16 hex characters of
`SHA256(userAgent + ipAddress + honeypotSecret)`. -/
def generateUserId (userAgent ipAddress honeypotSecret : String) : String :=
  (sha256Hex (userAgent ++ ipAddress ++ honeypotSecret)).take 16

/-- The block reasons `getContent` can produce, as symbolic values;
`renderReason` gives the exact strings the source assigns to
`redirectReason`. -/
inductive BlockReason
  | scrambleParameter
  | knownBadAgent
  | rateLimitExceeded (count limit : Nat)
deriving Repr, DecidableEq

def renderReason : Option BlockReason → String
  | none => ""
  | some .scrambleParameter => "Scramble parameter detected"
  | some .knownBadAgent => "Known bad user agent"
  | some (.rateLimitExceeded c l) =>
    "Rate limit exceeded: " ++ toString c ++ "/" ++ toString l ++ " (1min)"

structure GetContentResult where
  shouldScramble : Bool
  redirectReason : Option BlockReason
  userId : String
deriving Repr, DecidableEq

/-- The `RobotDetector` fields read by `getContent`. -/
structure DetectorState where
  knownBadAgents : List String
  knownGoodAgents : List String
  userRequests : RateMap
deriving Repr, DecidableEq

/-- Method `getContent(path, userAgent, ipAddress, referrer, queryParams)`:
the per-request decision pipeline.  `hasScrambleParam` is
`queryParams.scramble !== undefined`.  Returns the decision object and
the updated `userRequests` map (the only state it mutates). -/
def getContent (st : DetectorState) (honeypotSecret : String)
    (now window : Int) (max : Nat) (path userAgent ipAddress : String)
    (hasScrambleParam : Bool) : GetContentResult × RateMap :=
  let userId := generateUserId userAgent ipAddress honeypotSecret
  if hasScrambleParam then
    (⟨true, some .scrambleParameter, userId⟩, st.userRequests)
  else if isHtmlRequest path ∧ ¬ isExcludedFromRateLimit path then
    if isKnownGoodAgent st.knownGoodAgents userAgent then
      (⟨false, none, userId⟩, st.userRequests)
    else if isKnownBadAgent st.knownBadAgents userAgent then
      (⟨true, some .knownBadAgent, userId⟩, st.userRequests)
    else
      let (rateLimitCheck, m') :=
        checkRateLimits now window max st.userRequests userId
      if rateLimitCheck.exceeded then
        (⟨true,
          some (.rateLimitExceeded rateLimitCheck.shortCount
            rateLimitCheck.shortLimit), userId⟩, m')
      else
        (⟨false, none, userId⟩, addRequestToCounter now m' userId)
  else (⟨false, none, userId⟩, st.userRequests)

/-- Row of the settings table. -/
structure SettingRow where
  value : String
deriving Repr, DecidableEq

/-- Method `getHoneypotStatus()`: the result of the settings query for
the honeypot_enabled key is either an error (the catch branch) or a row
list; absent rows and errors both default to `true`. -/
def getHoneypotStatus (queryResult : Except String (List SettingRow)) :
    Bool :=
  match queryResult with
  | .error _ => true
  | .ok [] => true
  | .ok (row :: _) => row.value = "true"

/-- One rate-limited request in the style of `getContent`, at the
`checkRateLimits`/`addRequestToCounter` level: check first, then count
the request only when not exceeded. -/
def requestCycle (now window : Int) (max : Nat) (m : RateMap)
    (userId : String) : RateLimitResult × RateMap :=
  let (rateLimitCheck, m') := checkRateLimits now window max m userId
  (rateLimitCheck,
   if rateLimitCheck.exceeded then m' else addRequestToCounter now m' userId)

/-- The rate map after `k` consecutive `requestCycle`s of one visitor,
starting from the empty map. -/
def iterCycles (now window : Int) (max : Nat) (userId : String) :
    Nat → RateMap
  | 0 => []
  | k + 1 => (requestCycle now window max
      (iterCycles now window max userId k) userId).2

/-! ## class `ContentScrambler` — `scrambleText` / `scrambleHtmlContent` -/

/-- Single-character separators of the split regex of `scrambleText`:
period, comma, bang, question mark, semicolon, colon, double quote,
apostrophe, parentheses, square brackets, curly braces, hyphen, em dash
and en dash (some are written by code point). -/
def scrambleSeparators : List Char :=
  ['.', ',', '!', '?', ';', ':', Char.ofNat 34, Char.ofNat 39, '(', ')',
   '[', ']', Char.ofNat 123, Char.ofNat 125, '-', Char.ofNat 0x2014,
   Char.ofNat 0x2013]

def isSepPunct (ch : Char) : Bool := scrambleSeparators.contains ch

/-- JS capturing split of `scrambleText` on the character list: chunks
alternate with captured separators (maximal whitespace runs or single
punctuation characters), including the empty chunks JS `split`
produces between adjacent separators.  `wsMode = true` means a
whitespace run is being accumulated; `acc` is the reversed current
chunk/run. -/
def splitGo : List Char → Bool → List Char → List (List Char)
  | [], false, acc => [acc.reverse]
  | [], true, acc => [acc.reverse, []]
  | ch :: rest, false, acc =>
    if ch.isWhitespace then acc.reverse :: splitGo rest true [ch]
    else if isSepPunct ch then acc.reverse :: [ch] :: splitGo rest false []
    else splitGo rest false (ch :: acc)
  | ch :: rest, true, acc =>
    if ch.isWhitespace then splitGo rest true (ch :: acc)
    else if isSepPunct ch then
      acc.reverse :: [] :: [ch] :: splitGo rest false []
    else acc.reverse :: splitGo rest false [ch]

def splitParts (text : String) : List String :=
  (splitGo text.data false []).map List.asString

/-- Word-token test of `scrambleText`: one or more characters, each an
ASCII alphanumeric or an apostrophe. -/
def isWordToken (s : String) : Bool :=
  ¬ s.isEmpty && s.data.all fun ch => ch.isAlphanum || ch = Char.ofNat 39

/-- The capitalization transfer of `scrambleText`: capitalize the
replacement's first character when the original's first character equals
its own `toUpperCase()`; fully uppercase the replacement when the whole
original word (of length > 1) equals its own `toUpperCase()`. -/
def applyCaps (originalWord replacementWord : String) : String :=
  let capFirst : String :=
    match replacementWord.data with
    | [] => ""
    | c :: t => ⟨c.toUpper :: t⟩
  let step1 :=
    if (originalWord.data.headD ' ').toUpper = originalWord.data.headD ' '
    then capFirst else replacementWord
  if originalWord.data.map Char.toUpper = originalWord.data ∧
      1 < originalWord.length then
    ⟨replacementWord.data.map Char.toUpper⟩
  else step1

/-- The `words.forEach` body of `scrambleText`, walking the enumerated
parts in order; `wi` counts word tokens seen so far (`wordIndex`).  Each
word token gets `generateWords(1, seed + wordIndex + partIndex +
textLength)`; a missing, `undefined` or falsy replacement keeps the
original word. -/
def replaceWords (c : MarkovChain) (seed : String) (textLength : Nat) :
    List (Nat × String) → Nat → Except Unit (List String)
  | [], _ => .ok []
  | (idx, part) :: rest, wi =>
    if isWordToken part then
      match c.generateWords 1
          (seed ++ toString wi ++ toString idx ++ toString textLength) none with
      | .error e => .error e
      | .ok replacementWords =>
        let newPart :=
          match replacementWords.head? with
          | some (some w) => if w = "" then part else applyCaps part w
          | _ => part
        match replaceWords c seed textLength rest (wi + 1) with
        | .error e => .error e
        | .ok l => .ok (newPart :: l)
    else
      match replaceWords c seed textLength rest wi with
      | .error e => .error e
      | .ok l => .ok (part :: l)

/-- Method `scrambleText(text, seed)`. -/
def scrambleText (c : MarkovChain) (text seed : String) :
    Except Unit String :=
  if text = "" then .ok text
  else
    let parts := splitParts text
    if parts.all fun p => ¬ isWordToken p then .ok text
    else
      match replaceWords c seed text.length parts.enum 0 with
      | .error e => .error e
      | .ok replaced => .ok (String.join replaced)

/-- JS `trim()`: strip leading and trailing whitespace. -/
def jsTrim (s : String) : String :=
  ⟨((s.data.dropWhile Char.isWhitespace).reverse.dropWhile
    Char.isWhitespace).reverse⟩

/-- Skip test of `scrambleHtmlContent` on the trimmed block: the regex
accepts exactly the strings in which every character is whitespace, an
ampersand, a semicolon, or a word character (ASCII alphanumeric or
underscore). -/
def skipBlockTest (s : String) : Bool :=
  s.data.all fun ch =>
    ch.isWhitespace || ch.isAlphanum || ch = '_' || ch = '&' || ch = ';'

/-- The `html.replace(/>([^<]+)</g, …)` scan of `scrambleHtmlContent`,
as a single left-to-right pass.  `collecting = some acc` means a `>` was
seen and the (reversed) run of non-`<` characters `acc` is being
accumulated; on the closing `<` the block is skipped or scrambled.  A
run that reaches the end of input without a `<`, or an empty run, is not
a regex match and is emitted verbatim.  `bi` is `textBlockIndex`, which
the source increments only for scrambled blocks. -/
def scramblePass (c : MarkovChain) (seed : String) :
    List Char → Nat → Option (List Char) → Except Unit (List Char)
  | [], _, none => .ok []
  | [], _, some acc => .ok ('>' :: acc.reverse)
  | ch :: rest, bi, none =>
    if ch = '>' then scramblePass c seed rest bi (some [])
    else
      match scramblePass c seed rest bi none with
      | .error e => .error e
      | .ok tl => .ok (ch :: tl)
  | ch :: rest, bi, some acc =>
    if ch = '<' then
      if acc.isEmpty then
        match scramblePass c seed rest bi none with
        | .error e => .error e
        | .ok tl => .ok ('>' :: '<' :: tl)
      else
        let textContent : String := (acc.reverse).asString
        let trimmed := jsTrim textContent
        if trimmed = "" ∨ skipBlockTest trimmed then
          match scramblePass c seed rest bi none with
          | .error e => .error e
          | .ok tl => .ok ('>' :: acc.reverse ++ '<' :: tl)
        else
          let blockSeed := seed ++ "_block_" ++ toString bi ++ "_" ++
            toString textContent.length
          match scrambleText c textContent blockSeed with
          | .error e => .error e
          | .ok scrambled =>
            match scramblePass c seed rest (bi + 1) none with
            | .error e => .error e
            | .ok tl => .ok ('>' :: scrambled.data ++ '<' :: tl)
    else scramblePass c seed rest bi (some (ch :: acc))

/-- Method `scrambleHtmlContent(html, seed)`. -/
def scrambleHtmlContent (c : MarkovChain) (html seed : String) :
    Except Unit String :=
  if html = "" then .ok html
  else
    match scramblePass c seed html.data 0 none with
    | .error e => .error e
    | .ok chars => .ok chars.asString

/-! ## Concrete states used by witnesses and counterexamples -/

/-- Index of the one-sentence corpus "a a": the word "a" transitions to
itself once. -/
def chainAA : MarkovChain := ⟨[("a", [("a", 1)])], ["a"], true, 1⟩

/-- Variant of `chainAA` that differs only in the `totalTransitions`
field, which `generateWords` never reads. -/
def chainAA2 : MarkovChain := ⟨[("a", [("a", 1)])], ["a"], true, 999⟩

/-- Index of the corpus "the cat sat the dog ran". -/
def chainPets : MarkovChain :=
  ⟨[("the", [("cat", 1), ("dog", 1)]), ("cat", [("sat", 1)]),
    ("sat", [("the", 1)]), ("dog", [("ran", 1)])],
   ["the", "cat", "sat", "dog", "ran"], true, 5⟩

end Malfeasant

deriving instance DecidableEq for Except

namespace Malfeasant

/-! ## Theorems -/

set_option maxRecDepth 400000

/-- Scaling bridge for the strict comparisons on `random()` values: a
digest byte over 255 compared against `p / q` in exact rational
arithmetic agrees with the integer comparison used in the embedding. -/
theorem byteScale_lt (b p q : Nat) (hq : 0 < q) :
    ((b : ℚ) / 255 < (p : ℚ) / (q : ℚ)) ↔ b * q < p * 255 := by
  rw [div_lt_div_iff₀ (by norm_num) (by exact_mod_cast hq)]
  constructor <;> intro h <;> exact_mod_cast h

/-- Scaling bridge for the comparison of `weightedWalk`: the rational
comparison of the source formula agrees with the 255-scaled integer
comparison used in the embedding. -/
theorem byteScale_le (a c : Nat) : ((a : ℚ) / 255 ≤ (c : ℚ)) ↔ a ≤ c * 255 := by
  rw [div_le_iff₀ (by norm_num : (0 : ℚ) < 255)]
  constructor <;> intro h <;> exact_mod_cast h

/-- The integer-division form of `randomInt` in the embedding equals the
floor formula of the source. -/
theorem randomInt_eq_floor (sr : SeededRandom) (min max : Int) :
    sr.randomInt min max =
      (⌊sr.random.1 * ((max : ℚ) - (min : ℚ))⌋ + min, sr.random.2) := by
  unfold SeededRandom.randomInt SeededRandom.random
  obtain ⟨b, sr'⟩ := sr.nextByte
  have hcast : (b : ℚ) / 255 * ((max : ℚ) - (min : ℚ)) =
      ((b * (max - min) : ℤ) : ℚ) / ((255 : ℕ) : ℚ) := by
    push_cast
    ring
  simp only [hcast, Rat.floor_intCast_div_natCast]
  norm_num

/-- Length of the SHA-256 digest: always 32 bytes. -/
theorem sha256_length (s : String) : (sha256 s).length = 32 := by
  simp [sha256, Sha256.digestBytes, Sha256.natToBytesBE]

/-- Every byte of a SHA-256 digest is at most 255. -/
theorem sha256_bytes_le (s : String) : ∀ b ∈ sha256 s, b ≤ 255 := by
  intro b hb
  simp only [sha256, Sha256.digestBytes, Sha256.natToBytesBE, List.mem_append,
    List.mem_map, List.mem_range] at hb
  rcases hb with ((((((⟨i, _, rfl⟩ | ⟨i, _, rfl⟩) | ⟨i, _, rfl⟩) | ⟨i, _, rfl⟩) |
    ⟨i, _, rfl⟩) | ⟨i, _, rfl⟩) | ⟨i, _, rfl⟩) | ⟨i, _, rfl⟩ <;> omega

/-- Bounded default read used by the PRNG draws. -/
theorem getD_le_255 (l : List Nat) (h : ∀ b ∈ l, b ≤ 255) (i : Nat) :
    l.getD i 0 ≤ 255 := by
  induction l generalizing i with
  | nil => simp [List.getD]
  | cons c t ih =>
    cases i with
    | zero => exact h c (by simp)
    | succ j =>
      simpa using ih (fun b hb => h b (by simp [hb])) j

/-- Draws from any state over a digest of bytes at most 255 stay inside
the closed unit interval. -/
theorem drawAt_bounds : ∀ (k : Nat) (sr : SeededRandom),
    (∀ b ∈ sr.hash, b ≤ 255) →
    0 ≤ sr.drawAt k ∧ sr.drawAt k ≤ 1 := by
  intro k
  induction k with
  | zero =>
    intro sr hb
    unfold SeededRandom.drawAt SeededRandom.random SeededRandom.nextByte
    constructor
    · positivity
    · rw [div_le_one (by norm_num : (0 : ℚ) < 255)]
      exact_mod_cast getD_le_255 sr.hash hb _
  | succ k ih =>
    intro sr hb
    unfold SeededRandom.drawAt
    exact ih sr.random.2 hb

/-- C6 counterexample: the claim says every `random()` value is strictly
below 1, but for the seed "s12" the first digest byte is 255 and the
first draw equals `255 / 255 = 1`. -/
theorem random_value_reaches_one :
    ¬ ((SeededRandom.ofSeed "s12").drawAt 0 < 1) := by
  have hb : (sha256 "s12").getD 0 0 = 255 := by decide
  have hlen : (sha256 "s12").length = 32 := sha256_length _
  show ¬ ((⟨sha256 "s12", 0⟩ : SeededRandom).drawAt 0 < 1)
  unfold SeededRandom.drawAt SeededRandom.random SeededRandom.nextByte
  simp only [ite_self]
  rw [hb]
  norm_num

/-- C6 (amended): for every seed string and every draw number, the value
returned by `SeededRandom.random()` lies in the closed interval [0, 1]:
it is at least 0 and at most 1, reaching 1 exactly on digest bytes equal
to 255 (so the half-open bound `< 1` of the original claim fails). -/
theorem random_values_in_closed_unit_interval (seed : String) (k : Nat) :
    0 ≤ (SeededRandom.ofSeed seed).drawAt k ∧
      (SeededRandom.ofSeed seed).drawAt k ≤ 1 :=
  drawAt_bounds k (SeededRandom.ofSeed seed) (sha256_bytes_le seed)

/-- Draw values as a function of the digest and the start index: with a
32-byte digest, draw `k` from index `i ≤ 32` reads digest byte
`(i + k) % 32`. -/
theorem drawAt_index (h : List Nat) (hlen : h.length = 32) :
    ∀ (k i : Nat), i ≤ 32 →
      SeededRandom.drawAt ⟨h, i⟩ k = (h.getD ((i + k) % 32) 0 : ℚ) / 255 := by
  intro k
  induction k with
  | zero =>
    intro i hi
    unfold SeededRandom.drawAt SeededRandom.random SeededRandom.nextByte
    simp only [hlen]
    by_cases hc : 32 ≤ i
    · have hieq : i = 32 := le_antisymm hi hc
      subst hieq
      norm_num
    · have hmod : (i + 0) % 32 = i := by omega
      rw [hmod]
      simp [hc]
  | succ k ih =>
    intro i hi
    show SeededRandom.drawAt (⟨h, i⟩ : SeededRandom).random.2 k = _
    have hstep : (⟨h, i⟩ : SeededRandom).random.2 =
        ⟨h, (if 32 ≤ i then 0 else i) + 1⟩ := by
      unfold SeededRandom.random SeededRandom.nextByte
      simp [hlen]
    rw [hstep]
    by_cases hc : 32 ≤ i
    · rw [if_pos hc, ih 1 (by omega)]
      have hmod : (1 + k) % 32 = (i + (k + 1)) % 32 := by omega
      rw [hmod]
    · rw [if_neg hc, ih (i + 1) (by omega)]
      have hmod : (i + 1 + k) % 32 = (i + (k + 1)) % 32 := by omega
      rw [hmod]

/-- C10: for every seed string, the `random()` stream is periodic with
period dividing 32 (the SHA-256 digest length): draw `k + 32` equals
draw `k` for every `k`. -/
theorem random_stream_periodic_32 (seed : String) (k : Nat) :
    (SeededRandom.ofSeed seed).drawAt (k + 32) =
      (SeededRandom.ofSeed seed).drawAt k := by
  have hlen : (sha256 seed).length = 32 := sha256_length seed
  show SeededRandom.drawAt ⟨sha256 seed, 0⟩ (k + 32) =
    SeededRandom.drawAt ⟨sha256 seed, 0⟩ k
  rw [drawAt_index _ hlen (k + 32) 0 (by omega),
    drawAt_index _ hlen k 0 (by omega)]
  have : (0 + (k + 32)) % 32 = (0 + k) % 32 := by omega
  rw [this]

/-- C9: `getHoneypotStatus` returns `true` (honeypot enabled) both when
the settings read throws (the catch branch) and when the
`honeypot_enabled` row is absent, instead of propagating the error. -/
theorem honeypotStatus_failure_defaults_true (e : String) :
    getHoneypotStatus (.error e) = true ∧
      getHoneypotStatus (.ok []) = true :=
  ⟨rfl, rfl⟩

/-- Rate-map read on a cons cell. -/
theorem mapGet_cons (k u : String) (v : List Int) (rest : RateMap) :
    mapGet ((k, v) :: rest) u = if u = k then v else mapGet rest u := by
  unfold mapGet
  by_cases h : u = k
  · rw [if_pos h]
    subst h
    simp [List.lookup]
  · rw [if_neg h]
    simp only [List.lookup]
    rw [show (u == k) = false from beq_eq_false_iff_ne.mpr h]

/-- Reading back the key just written into the rate map. -/
theorem mapGet_mapSet (m : RateMap) (k : String) (v : List Int) :
    mapGet (mapSet m k v) k = v := by
  induction m with
  | nil => simp [mapSet, mapGet_cons]
  | cons e t ih =>
    obtain ⟨k', v'⟩ := e
    by_cases h : k' = k
    · subst h
      simp only [mapSet, if_pos rfl]
      simp [mapGet_cons]
    · simp only [mapSet, if_neg h]
      rw [mapGet_cons, if_neg (Ne.symm h)]
      exact ih

/-- Reading a key other than the one just written. -/
theorem mapGet_mapSet_ne (m : RateMap) (k u : String) (v : List Int)
    (h : u ≠ k) : mapGet (mapSet m k v) u = mapGet m u := by
  induction m with
  | nil =>
    show mapGet ((k, v) :: []) u = mapGet [] u
    rw [mapGet_cons, if_neg h]
  | cons e t ih =>
    obtain ⟨k', v'⟩ := e
    by_cases hk : k' = k
    · subst hk
      rw [show mapSet ((k', v') :: t) k' v = (k', v) :: t from by
        simp [mapSet]]
      rw [mapGet_cons, mapGet_cons, if_neg h, if_neg h]
    · simp only [mapSet, if_neg hk]
      rw [mapGet_cons, mapGet_cons]
      by_cases hu : u = k'
      · rw [if_pos hu, if_pos hu]
      · rw [if_neg hu, if_neg hu]
        exact ih

/-- Timestamps equal to `now` all survive the window filter (the window
is positive at every call site). -/
theorem filter_replicate_window (now window : Int) (hpos : 0 < window)
    (k : Nat) :
    (List.replicate k now).filter (fun ts => now - window < ts) =
      List.replicate k now := by
  apply List.filter_eq_self.mpr
  intro a ha
  have : a = now := (List.mem_replicate.mp ha).2
  subst this
  simp only [decide_eq_true_eq]
  omega

/-- Evaluation of `checkRateLimits` on a visitor whose stored list is
`k` copies of `now`. -/
theorem checkRateLimits_replicate (now window : Int) (max : Nat)
    (m : RateMap) (uid : String) (k : Nat) (hpos : 0 < window)
    (hget : mapGet m uid = List.replicate k now) :
    checkRateLimits now window max m uid =
      (⟨decide (max < k), k, max⟩,
        mapSet m uid (List.replicate k now)) := by
  simp only [checkRateLimits]
  rw [hget, filter_replicate_window now window hpos k]
  simp

/-- State of the rate map of one visitor after `k` check-then-count
request cycles at time `now` (window 60000 ms, max 10): `k` stored
copies of `now`, as long as no check has exceeded (`k ≤ 11`). -/
theorem iterCycles_get (now : Int) (uid : String) :
    ∀ k, k ≤ 11 →
      mapGet (iterCycles now 60000 10 uid k) uid = List.replicate k now := by
  intro k
  induction k with
  | zero => intro _; rfl
  | succ k ih =>
    intro hk
    have hget := ih (by omega)
    show mapGet (requestCycle now 60000 10
      (iterCycles now 60000 10 uid k) uid).2 uid = _
    unfold requestCycle
    rw [checkRateLimits_replicate now 60000 10 _ uid k (by omega) hget]
    have hdec : decide ((10 : Nat) < k) = false := by
      simp only [decide_eq_false_iff_not]
      omega
    simp only [hdec]
    show mapGet (addRequestToCounter now
      (mapSet (iterCycles now 60000 10 uid k) uid (List.replicate k now))
      uid) uid = _
    unfold addRequestToCounter
    rw [mapGet_mapSet, mapGet_mapSet, ← List.replicate_succ']

/-- C2 (amended): with window 60000 ms and max 10, a visitor who is
checked then counted on each request gets `exceeded = false` on the
first 11 requests (the check of request `k + 1` sees only the `k`
earlier timestamps and compares with strict `>`); the 12th request in
the same window is the first to get `exceeded = true`, with count 11. -/
theorem rateLimit_boundary_12th (now : Int) (uid : String) :
    (∀ k, k ≤ 10 →
      (requestCycle now 60000 10 (iterCycles now 60000 10 uid k) uid).1 =
        ⟨false, k, 10⟩) ∧
    (requestCycle now 60000 10 (iterCycles now 60000 10 uid 11) uid).1 =
      ⟨true, 11, 10⟩ := by
  constructor
  · intro k hk
    unfold requestCycle
    rw [checkRateLimits_replicate now 60000 10 _ uid k (by omega)
      (iterCycles_get now uid k (by omega))]
    have hdec : decide ((10 : Nat) < k) = false := by
      simp only [decide_eq_false_iff_not]
      omega
    simp [hdec]
  · unfold requestCycle
    rw [checkRateLimits_replicate now 60000 10 _ uid 11 (by omega)
      (iterCycles_get now uid 11 (by omega))]
    simp

/-- C2 counterexample: the claim says the 11th request in the window
gets `exceeded = true` with count 11, but the 11th request (after 10
counted ones) is still checked against only the 10 earlier timestamps
with a strict comparison, so it gets `exceeded = false` with count 10. -/
theorem rateLimit_eleventh_request_not_blocked :
    (requestCycle 0 60000 10 (iterCycles 0 60000 10 "v" 10) "v").1 =
      ⟨false, 10, 10⟩ := by
  decide

/-- Witness for `rateLimit_boundary_12th` at a concrete time and
visitor. -/
theorem rateLimit_boundary_12th_witness :
    (requestCycle 7 60000 10 (iterCycles 7 60000 10 "w" 3) "w").1 =
      ⟨false, 3, 10⟩ :=
  (rateLimit_boundary_12th 7 "w").1 3 (by omega)

/-- C8 counterexample: the claim says that after any rate-limiter read,
every stored timestamp of every visitor is at least `now - window`; but
`checkRateLimits` filters only the queried visitor, so a stale
timestamp of another visitor survives a read untouched. -/
theorem rateWindow_global_invariant_fails :
    (0 : Int) ∈ mapGet ((checkRateLimits 100000 60000 10
      [("b", [0])] "a").2) "b" ∧
      ¬ ((100000 : Int) - 60000 ≤ 0) := by
  decide

/-- Unfolding of the cleanup sweep on a cons cell. -/
theorem cleanup_cons (now window : Int) (k : String) (l : List Int)
    (t : RateMap) :
    cleanupRateCounters now window ((k, l) :: t) =
      if (l.filter (fun ts => now - window < ts)).isEmpty
      then cleanupRateCounters now window t
      else (k, l.filter (fun ts => now - window < ts)) ::
        cleanupRateCounters now window t := by
  simp only [cleanupRateCounters, List.filterMap_cons]
  by_cases hemp : (l.filter (fun ts => now - window < ts)).isEmpty
  · simp [hemp]
  · simp [hemp]

/-- C8 (amended): after `checkRateLimits` for visitor `v` at time `now`,
every timestamp stored for `v` itself is strictly newer than
`now - window`, and after a `cleanupRateCounters` sweep at `now` the
same holds for every visitor; but the read leaves other visitors
untouched and `addRequestToCounter` does no filtering, so the global
invariant after any single read or write fails. -/
theorem rateWindow_invariant_local (now window : Int) (max : Nat)
    (m : RateMap) (v : String) :
    (∀ ts ∈ mapGet ((checkRateLimits now window max m v).2) v,
      now - window < ts) ∧
    (∀ u ts, ts ∈ mapGet (cleanupRateCounters now window m) u →
      now - window < ts) := by
  constructor
  · intro ts hts
    simp only [checkRateLimits] at hts
    rw [mapGet_mapSet] at hts
    have := (List.mem_filter.mp hts).2
    simpa using this
  · intro u ts hts
    induction m with
    | nil => simp [cleanupRateCounters, mapGet, List.lookup] at hts
    | cons e t ih =>
      obtain ⟨k, l⟩ := e
      rw [cleanup_cons] at hts
      by_cases hemp : (l.filter (fun ts => now - window < ts)).isEmpty
      · rw [if_pos hemp] at hts
        exact ih hts
      · rw [if_neg hemp, mapGet_cons] at hts
        by_cases hu : u = k
        · rw [if_pos hu] at hts
          have := (List.mem_filter.mp hts).2
          simpa using this
        · rw [if_neg hu] at hts
          exact ih hts

/-- Witness for `rateWindow_invariant_local` at a concrete state. -/
theorem rateWindow_invariant_local_witness :
    (100000 : Int) - 60000 < 99999 :=
  (rateWindow_invariant_local 100000 60000 10 [("a", [99999])] "a").1
    99999 (by decide)

/-- C1: `generateWords` is a pure function of `(count, seed, startWord)`
and the index state the method reads (`chains`, `words`, `isIndexed`):
two chain objects agreeing on those fields produce identical results, so
two calls with identical inputs and identical index state return
identical word sequences. -/
theorem generateWords_deterministic (c₁ c₂ : MarkovChain) (len : Nat)
    (seed : String) (sw : Option String)
    (hch : c₁.chains = c₂.chains) (hw : c₁.words = c₂.words)
    (hi : c₁.isIndexed = c₂.isIndexed) :
    c₁.generateWords len seed sw = c₂.generateWords len seed sw := by
  simp only [MarkovChain.generateWords, hch, hw, hi]

/-- Witness for `generateWords_deterministic` on two concrete chain
objects that differ in the unread `totalTransitions` field. -/
theorem generateWords_deterministic_witness :
    chainAA.generateWords 3 "x" none = chainAA2.generateWords 3 "x" none :=
  generateWords_deterministic chainAA chainAA2 3 "x" none rfl rfl rfl

/-- C3: a request whose user agent is in the allow-list set is never
given reason `known_bad_agent` or `rate_limit_exceeded`, whatever the
deny list and the stored request counters contain, and its
`userRequests` map is returned unchanged (the request is not
rate-counted). -/
theorem allowlist_precedence (st : DetectorState) (secret : String)
    (now window : Int) (max : Nat) (path ua ip : String) (scr : Bool)
    (hgood : isKnownGoodAgent st.knownGoodAgents ua = true) :
    (getContent st secret now window max path ua ip scr).1.redirectReason ≠
        some .knownBadAgent ∧
      (∀ cnt lim,
        (getContent st secret now window max path ua ip
          scr).1.redirectReason ≠ some (.rateLimitExceeded cnt lim)) ∧
      (getContent st secret now window max path ua ip scr).2 =
        st.userRequests := by
  unfold getContent
  by_cases hs : scr = true
  · simp [hs]
  · cases hhtml : isHtmlRequest path with
    | false => simp [hs, hhtml]
    | true =>
      cases hexc : isExcludedFromRateLimit path with
      | true => simp [hs, hhtml, hexc]
      | false => simp [hs, hhtml, hexc, hgood]

/-- Witness for `allowlist_precedence`: the agent "Googlebot" is
allow-listed (exactly, case-insensitively) while the deny list contains
the substring pattern "bot"; the allow list wins. -/
theorem allowlist_precedence_witness :
    (getContent ⟨["bot"], ["googlebot"], [("v", [0])]⟩ "sec" 100 60000 10
        "/index.html" "Googlebot" "1.2.3.4" false).1.redirectReason ≠
      some .knownBadAgent :=
  (allowlist_precedence ⟨["bot"], ["googlebot"], [("v", [0])]⟩ "sec" 100
    60000 10 "/index.html" "Googlebot" "1.2.3.4" false (by decide)).1

/-- Executable substring containment agrees with `List.IsInfix`. -/
theorem strIncludesAux_iff (needle hay : List Char) :
    strIncludesAux needle hay = true ↔ needle <:+: hay := by
  induction hay with
  | nil =>
    simp [strIncludesAux, List.infix_nil, List.isEmpty_iff]
  | cons c t ih =>
    simp only [strIncludesAux, Bool.or_eq_true, List.isPrefixOf_iff_prefix,
      ih, List.infix_cons_iff]

theorem strIncludes_iff (s sub : String) :
    strIncludes s sub = true ↔ sub.data <:+: s.data :=
  strIncludesAux_iff sub.data s.data

/-- C4: with the two agent sets loaded from their table rows,
`isKnownBadAgent` is true exactly when some active deny-list pattern is
a substring of the lowercased user agent, while `isKnownGoodAgent` is
true exactly when the lowercased user agent is equal (case-insensitively)
to some active allow-list entry. -/
theorem agent_matching_asymmetry (badRows goodRows : List AgentRow)
    (ua : String) :
    (isKnownBadAgent (loadActiveAgents badRows) ua = true ↔
      ∃ r ∈ badRows, r.is_active = true ∧
        (jsToLower r.user_agent).data <:+: (jsToLower ua).data) ∧
    (isKnownGoodAgent (loadActiveAgents goodRows) ua = true ↔
      ∃ r ∈ goodRows, r.is_active = true ∧
        jsToLower ua = jsToLower r.user_agent) := by
  constructor
  · unfold isKnownBadAgent loadActiveAgents
    rw [List.any_eq_true]
    constructor
    · rintro ⟨p, hp, hinc⟩
      rw [List.mem_map] at hp
      obtain ⟨r, hr, rfl⟩ := hp
      rw [List.mem_filter] at hr
      exact ⟨r, hr.1, hr.2, (strIncludes_iff _ _).mp hinc⟩
    · rintro ⟨r, hr, hact, hinf⟩
      refine ⟨jsToLower r.user_agent, ?_, (strIncludes_iff _ _).mpr hinf⟩
      rw [List.mem_map]
      exact ⟨r, List.mem_filter.mpr ⟨hr, hact⟩, rfl⟩
  · unfold isKnownGoodAgent loadActiveAgents
    constructor
    · intro hmem
      have hm : jsToLower ua ∈
          (badRows.filter (·.is_active)).map (fun r => jsToLower r.user_agent)
            ∨ True := Or.inr trivial
      have : jsToLower ua ∈
          (goodRows.filter (·.is_active)).map fun r => jsToLower r.user_agent := by
        simpa using hmem
      rw [List.mem_map] at this
      obtain ⟨r, hr, heq⟩ := this
      rw [List.mem_filter] at hr
      exact ⟨r, hr.1, hr.2, heq.symm⟩
    · rintro ⟨r, hr, hact, heq⟩
      have : jsToLower ua ∈
          (goodRows.filter (·.is_active)).map fun r => jsToLower r.user_agent := by
        rw [List.mem_map]
        exact ⟨r, List.mem_filter.mpr ⟨hr, hact⟩, heq.symm⟩
      simpa using this

/-- C5 counterexample: on the index of the corpus "a a", requesting 4
words from seed "x" starting at "a" returns 5 words, because the
restart branch of the generation loop pushes a second word in the same
iteration (the claim says the result has exactly `count` elements and is
never longer). -/
theorem generateWords_length_counterexample :
    (chainAA.generateWords 4 "x" (some "a")).map List.length =
      .ok 5 := by
  decide

/-- Length of the fallback generation loop: exactly `n` picks. -/
theorem fallbackGen_length (n : Nat) :
    ∀ sr, (fallbackGen sr n).length = n := by
  induction n with
  | zero => intro sr; rfl
  | succ n ih =>
    intro sr
    unfold fallbackGen
    rcases hp : sr.pick fallbackWords with ⟨o, sr'⟩
    simp [ih]

/-- One iteration of the generation loop appends at least zero and at
most two words to the result. -/
theorem genStep_result_bounds (chains : List (String × List (String × Nat)))
    (words : List String) (st st' : GenState)
    (h : genStep chains words st = .ok st') :
    st.result.length ≤ st'.result.length ∧
      st'.result.length ≤ st.result.length + 2 := by
  unfold genStep at h
  rcases hga : getNextWord chains st.currentWord st.sr with e | ⟨nw0, sr0⟩
  · simp only [hga] at h
    exact Except.noConfusion h
  · simp only [hga] at h
    rcases hrd : retryDraw chains words.length st.currentWord st.used 5 nw0 sr0
      with e | ⟨nw, sr1⟩
    · simp only [hrd] at h
      exact Except.noConfusion h
    · simp only [hrd, Except.ok.injEq] at h
      subst h
      rcases nw with _ | w
      all_goals
        dsimp only
        repeat' split
        all_goals
          refine ⟨?_, ?_⟩ <;>
            (try simp only [List.length_append, List.length_cons,
              List.length_nil]) <;>
            omega

/-- The generation loop appends at most two words per iteration and
never removes any. -/
theorem genLoop_result_bounds
    (chains : List (String × List (String × Nat))) (words : List String) :
    ∀ (r : Nat) (st st' : GenState),
      genLoop chains words r st = .ok st' →
      st.result.length ≤ st'.result.length ∧
        st'.result.length ≤ st.result.length + 2 * r := by
  intro r
  induction r with
  | zero =>
    intro st st' h
    unfold genLoop at h
    rw [Except.ok.injEq] at h
    subst h
    omega
  | succ r ih =>
    intro st st' h
    unfold genLoop at h
    cases hg : genStep chains words st with
    | error e => simp [hg] at h
    | ok stm =>
      simp only [hg] at h
      have hstep := genStep_result_bounds chains words st stm hg
      have hrest := ih stm st' h
      omega

/-- Bounds for the indexed path, stated on the final match of
`generateWordsCore`. -/
theorem generateWords_indexed_bounds
    (chains : List (String × List (String × Nat))) (words : List String)
    (r : Nat) (st0 : GenState) (l : List (Option String))
    (h : (match genLoop chains words r st0 with
         | Except.error e => (Except.error e : Except Unit (List (Option String)))
         | Except.ok st => Except.ok st.result) = Except.ok l) :
    st0.result.length ≤ l.length ∧
      l.length ≤ st0.result.length + 2 * r := by
  cases hg : genLoop chains words r st0 with
  | error e =>
    simp only [hg] at h
    exact Except.noConfusion h
  | ok st =>
    simp only [hg, Except.ok.injEq] at h
    subst h
    exact genLoop_result_bounds chains words r st0 st hg

/-- C5 (amended): `generateWords(count, seed, startWord)` does not
always return exactly `count` words.  The fallback path does; but on the
indexed path a dead-end iteration appends nothing while a
restart iteration can append two words, so for `count ≥ 1` all that
holds is that a non-throwing run returns between 1 and
`2 * count - 1` words (the counterexample shows `count + 1` words being
returned). -/
theorem generateWords_length_bounds (c : MarkovChain) (len : Nat)
    (seed : String) (sw : Option String) (hlen : 1 ≤ len) :
    ∀ l, c.generateWords len seed sw = .ok l →
      1 ≤ l.length ∧ l.length ≤ 2 * len - 1 := by
  intro l h
  simp only [MarkovChain.generateWords, generateWordsCore] at h
  by_cases hidx : ¬ c.isIndexed = true ∨ c.words.isEmpty = true
  · rw [if_pos hidx, Except.ok.injEq] at h
    subst h
    rw [fallbackGen_length len (SeededRandom.ofSeed seed)]
    omega
  · rw [if_neg hidx] at h
    have hb := generateWords_indexed_bounds c.chains c.words (len - 1) _ l h
    simp only [List.length_singleton] at hb
    omega

/-- Witness for `generateWords_length_bounds` at the concrete run of the
counterexample: the 5-element result of requesting 4 words lies inside
the bounds 1 and 2 · 4 - 1 = 7. -/
theorem generateWords_length_bounds_witness :
    1 ≤ ([some "a", some "a", some "a", some "a", some "a"] :
        List (Option String)).length ∧
      ([some "a", some "a", some "a", some "a", some "a"] :
        List (Option String)).length ≤ 2 * 4 - 1 :=
  generateWords_length_bounds chainAA 4 "x" (some "a") (by omega) _
    (by decide)

/-- C7 (code-bug evidence): the skip test of `scrambleHtmlContent` also
matches plain word text, so the text block of
"<p>Hello world</p>" is returned unchanged even though it is neither
whitespace nor HTML-entity references — contradicting the comment in
the source ("Skip if this is just whitespace or contains only HTML
entities").  The second conjunct shows that the same chain does scramble
the same block once a comma makes the skip regex fail, so the first
result is due to the skip test, not to a degenerate index. -/
theorem scrambleHtml_plain_text_not_scrambled :
    scrambleHtmlContent chainPets "<p>Hello world</p>" "seed1" =
        .ok "<p>Hello world</p>" ∧
      scrambleHtmlContent chainPets "<p>Hello, world!</p>" "seed1" =
        .ok "<p>The, ran!</p>" := by
  constructor
  · decide
  · decide

end Malfeasant
